import Mathlib

/-!
Verification development for the Cyborg-care PHI-safe clinical retrieval
pipeline.  The definitions below are a shallow embedding of the TypeScript
source:

* `src/lib/vector-storage.ts` — PHI masking utilities (`PHI_PATTERNS`,
  `maskPHI`, `containsPHI`, `anonymizeRecord`) and cosine similarity;
* `src/lib/retrieval.ts` — `processQuery`, `generateClinicalResponse`;
* `src/lib/embeddings.ts` — `encryptData` / `decryptData` (AES-GCM framing);
* the medical-embeddings module — `cosineSimilarity`, `findSimilarEmbeddings`;
* the data-pipeline module — `validateRecord`, `processRecord`, `processBatch`.

Strings are modelled as `List Char` internally (`String.data`); JavaScript
regular expressions are hand-compiled, pattern by pattern, into matchers with
the exact JS semantics needed here: word-boundary `\b` tests, ordered
alternation, greedy quantifiers with backtracking (longest first), and the
`g`/`i` flags.  Floating point numbers are modelled as real numbers (`ℝ`)
where square roots occur and as rationals (`ℚ`) elsewhere.
-/

namespace CyborgCare

/-! ### JS regular-expression primitives

`isWordChar` is the JS `\w` class `[A-Za-z0-9_]`; `atBoundary s i` is the JS
`\b` assertion between positions `i-1` and `i` (out-of-range counts as a
non-word character). -/

def isWordChar (c : Char) : Bool :=
  c.isAlphanum || c = '_'

def wordAt (s : List Char) (i : Nat) : Bool :=
  match s.get? i with
  | some c => isWordChar c
  | none => false

def atBoundary (s : List Char) (i : Nat) : Bool :=
  (if i = 0 then false else wordAt s (i - 1)) != wordAt s i

/-- JS `\s` (the whitespace characters occurring in this code base's data). -/
def isSpaceChar (c : Char) : Bool :=
  c = ' ' || c = '\t' || c = '\n' || c = '\r'

/-- The class `[\s:]` used by the labelled PHI patterns. -/
def isSpaceColon (c : Char) : Bool :=
  isSpaceChar c || c = ':'

/-- The class `[A-Z]`/`[a-z]` under the `i` flag: any ASCII letter. -/
def isAlphaCI (c : Char) : Bool :=
  c.isAlpha

/-- The class `[A-Z0-9]` under the `i` flag: any ASCII letter or digit. -/
def isAlnumCI (c : Char) : Bool :=
  c.isAlphanum

/-- The email local-part class `[A-Za-z0-9._%+-]`. -/
def isEmailLocalChar (c : Char) : Bool :=
  c.isAlphanum || c = '.' || c = '_' || c = '%' || c = '+' || c = '-'

/-- The email domain class `[A-Za-z0-9.-]`. -/
def isEmailDomainChar (c : Char) : Bool :=
  c.isAlphanum || c = '.' || c = '-'

/-- The literal class `[A-Z|a-z]` of the email pattern (it contains `|`). -/
def isTldChar (c : Char) : Bool :=
  c.isAlpha || c = '|'

/-- The class `[a-z\s]` under the `i` flag (facility pattern). -/
def isAlphaSpaceCI (c : Char) : Bool :=
  c.isAlpha || isSpaceChar c

/-- Case-insensitive character comparison, as the JS `i` flag canonicalises
ASCII letters. -/
def eqCI (ci : Bool) (c d : Char) : Bool :=
  if ci then c.toLower = d.toLower else c = d

/-- Match a literal string at position `i`; returns the end position. -/
def litAt (ci : Bool) : List Char → List Char → Nat → Option Nat
  | [], _, i => some i
  | c :: cs, s, i =>
    match s.get? i with
    | some d => if eqCI ci c d then litAt ci cs s (i + 1) else none
    | none => none

/-- Match a single character of class `p` at position `i`. -/
def clsAt (p : Char → Bool) (s : List Char) (i : Nat) : Option Nat :=
  match s.get? i with
  | some c => if p c then some (i + 1) else none
  | none => none

/-- Length of the maximal run of class-`p` characters starting at `i`. -/
def runLen (p : Char → Bool) (s : List Char) (i : Nat) : Nat :=
  ((s.drop i).takeWhile p).length

/-- Try continuations at `base + n, base + n - 1, …, base` (greedy order:
longest candidate first), returning the first success — this is exactly the
backtracking order of a greedy JS quantifier. -/
def tryCounts (k : Nat → Option Nat) (base : Nat) : Nat → Option Nat
  | 0 => k base
  | n + 1 =>
    match k (base + (n + 1)) with
    | some r => some r
    | none => tryCounts k base n

/-- Greedy `p{lo,}` (with `p{lo,hi}` via `hi`), then continuation `k`,
backtracking from the longest possible count down to `lo`. -/
def repRange (p : Char → Bool) (lo hi : Nat) (s : List Char) (i : Nat)
    (k : Nat → Option Nat) : Option Nat :=
  let r := min (runLen p s i) hi
  if r < lo then none else tryCounts k (i + lo) (r - lo)

/-- Greedy `p*` then continuation `k`. -/
def repStar (p : Char → Bool) (s : List Char) (i : Nat)
    (k : Nat → Option Nat) : Option Nat :=
  tryCounts k i (runLen p s i)

/-- Greedy `p{lo,}` (unbounded) then continuation `k`. -/
def repAtLeast (p : Char → Bool) (lo : Nat) (s : List Char) (i : Nat)
    (k : Nat → Option Nat) : Option Nat :=
  repRange p lo (runLen p s i) s i k

/-- Ordered alternation over literal alternatives (full backtracking: a later
alternative is tried whenever an earlier one, or its continuation, fails). -/
def altLits (ci : Bool) (alts : List (List Char)) (s : List Char) (i : Nat)
    (k : Nat → Option Nat) : Option Nat :=
  match alts with
  | [] => none
  | l :: ls =>
    match (litAt ci l s i).bind k with
    | some r => some r
    | none => altLits ci ls s i k

/-- Final `\b` assertion continuation. -/
def endBoundary (s : List Char) (e : Nat) : Option Nat :=
  if atBoundary s e then some e else none

/-! ### The eight `PHI_PATTERNS` matchers

Each matcher is anchored at a start position and returns the end position of
the (leftmost-greedy) match there, exactly as the corresponding JS regex
would match.  Sources: `PHI_PATTERNS` in `src/lib/vector-storage.ts`. -/

/-- Matcher for `/\b\d{3}-\d{2}-\d{4}\b/g` (SSN). -/
def matchSSN (s : List Char) (i : Nat) : Option Nat :=
  if atBoundary s i then
    repRange Char.isDigit 3 3 s i fun a =>
    (clsAt (· = '-') s a).bind fun b =>
    repRange Char.isDigit 2 2 s b fun c =>
    (clsAt (· = '-') s c).bind fun d =>
    repRange Char.isDigit 4 4 s d fun e =>
    endBoundary s e
  else none

/-- Matcher for `/\b(MRN|MR#|Medical Record)[\s:]*([A-Z0-9]{6,})\b/gi` (MRN). -/
def matchMRN (s : List Char) (i : Nat) : Option Nat :=
  if atBoundary s i then
    altLits true ["MRN".data, "MR#".data, "Medical Record".data] s i fun a =>
    repStar isSpaceColon s a fun b =>
    repAtLeast isAlnumCI 6 s b fun c =>
    endBoundary s c
  else none

/-- Matcher for `/\b(Patient|Pt|Name)[\s:]*([A-Z][a-z]+ [A-Z][a-z]+)\b/gi` (patient name). -/
def matchPatientName (s : List Char) (i : Nat) : Option Nat :=
  if atBoundary s i then
    altLits true ["Patient".data, "Pt".data, "Name".data] s i fun a =>
    repStar isSpaceColon s a fun b =>
    (clsAt isAlphaCI s b).bind fun c =>
    repAtLeast isAlphaCI 1 s c fun d =>
    (clsAt (· = ' ') s d).bind fun e =>
    (clsAt isAlphaCI s e).bind fun f =>
    repAtLeast isAlphaCI 1 s f fun g =>
    endBoundary s g
  else none

/-- The DOB pattern, flags `gi`: `\b(DOB|Date of Birth)[\s:]*` then a date
`\d{1,2} sep \d{1,2} sep \d{2,4}` with `sep` the class of slash and dash,
then `\b`. -/
def matchDOB (s : List Char) (i : Nat) : Option Nat :=
  if atBoundary s i then
    altLits true ["DOB".data, "Date of Birth".data] s i fun a =>
    repStar isSpaceColon s a fun b =>
    repRange Char.isDigit 1 2 s b fun c =>
    (clsAt (fun ch => ch = '/' || ch = '-') s c).bind fun d =>
    repRange Char.isDigit 1 2 s d fun e =>
    (clsAt (fun ch => ch = '/' || ch = '-') s e).bind fun f =>
    repRange Char.isDigit 2 4 s f fun g =>
    endBoundary s g
  else none

/-- Matcher for `/\b(\d{3}[-.]?\d{3}[-.]?\d{4})\b/g` (phone). -/
def matchPhone (s : List Char) (i : Nat) : Option Nat :=
  if atBoundary s i then
    repRange Char.isDigit 3 3 s i fun a =>
    repRange (fun ch => ch = '-' || ch = '.') 0 1 s a fun b =>
    repRange Char.isDigit 3 3 s b fun c =>
    repRange (fun ch => ch = '-' || ch = '.') 0 1 s c fun d =>
    repRange Char.isDigit 4 4 s d fun e =>
    endBoundary s e
  else none

/-- Matcher for `/\b[A-Za-z0-9._%+-]+@[A-Za-z0-9.-]+\.[A-Z|a-z]{2,}\b/g` (email). -/
def matchEmail (s : List Char) (i : Nat) : Option Nat :=
  if atBoundary s i then
    repAtLeast isEmailLocalChar 1 s i fun a =>
    (clsAt (· = '@') s a).bind fun b =>
    repAtLeast isEmailDomainChar 1 s b fun c =>
    (clsAt (· = '.') s c).bind fun d =>
    repAtLeast isTldChar 2 s d fun e =>
    endBoundary s e
  else none

/-- Matcher for `/\b(Account|Policy|Insurance)[\s:]*([A-Z0-9]{8,})\b/gi` (account number). -/
def matchAccountNumber (s : List Char) (i : Nat) : Option Nat :=
  if atBoundary s i then
    altLits true ["Account".data, "Policy".data, "Insurance".data] s i fun a =>
    repStar isSpaceColon s a fun b =>
    repAtLeast isAlnumCI 8 s b fun c =>
    endBoundary s c
  else none

/-- Matcher for `/\b(at|from|admitted to)[\s]+([A-Z][a-z\s]+Hospital|Medical Center|Clinic)\b/gi`
(facility with patient context). -/
def matchFacility (s : List Char) (i : Nat) : Option Nat :=
  if atBoundary s i then
    altLits true ["at".data, "from".data, "admitted to".data] s i fun a =>
    repAtLeast isSpaceChar 1 s a fun b =>
    match
      (clsAt isAlphaCI s b).bind fun c =>
      repAtLeast isAlphaSpaceCI 1 s c fun d =>
      (litAt true "Hospital".data s d).bind (endBoundary s)
    with
    | some r => some r
    | none =>
      match (litAt true "Medical Center".data s b).bind (endBoundary s) with
      | some r => some r
      | none => (litAt true "Clinic".data s b).bind (endBoundary s)
  else none

/-! ### JS `exec` scanning and the pattern registry -/

/-- Scan forward from `j` for the leftmost position where the matcher
succeeds (this is what `RegExp.exec` does from `lastIndex`).  Returns
`(index, end)`.  `fuel` is an upper bound on the number of positions left. -/
def scanAux (m : List Char → Nat → Option Nat) (s : List Char) :
    Nat → Nat → Option (Nat × Nat)
  | 0, _ => none
  | fuel + 1, j =>
    match m s j with
    | some e => some (j, e)
    | none => scanAux m s fuel (j + 1)

def scanFrom (m : List Char → Nat → Option Nat) (s : List Char) (j : Nat) :
    Option (Nat × Nat) :=
  scanAux m s (s.length + 1 - j) j

/-- All matches of a global regex, in order: each `exec` resumes from the end
of the previous match (`lastIndex`). -/
def execAll (m : List Char → Nat → Option Nat) (s : List Char) :
    Nat → Nat → List (Nat × Nat)
  | 0, _ => []
  | fuel + 1, j =>
    match scanFrom m s j with
    | none => []
    | some (a, e) => (a, e) :: execAll m s fuel e

/-- One entry of `PHI_PATTERNS`: its key, its mask token
`` `[${type.toUpperCase()}_MASKED]` ``, and its compiled matcher. -/
structure PhiPattern where
  ptype : String
  token : String
  matcher : List Char → Nat → Option Nat

/-- Embedding of `PHI_PATTERNS`, in object-literal insertion order (the order
`Object.entries` iterates). -/
def PHI_PATTERNS : List PhiPattern :=
  [⟨"ssn", "[SSN_MASKED]", matchSSN⟩,
   ⟨"mrn", "[MRN_MASKED]", matchMRN⟩,
   ⟨"patientName", "[PATIENTNAME_MASKED]", matchPatientName⟩,
   ⟨"dob", "[DOB_MASKED]", matchDOB⟩,
   ⟨"phone", "[PHONE_MASKED]", matchPhone⟩,
   ⟨"email", "[EMAIL_MASKED]", matchEmail⟩,
   ⟨"accountNumber", "[ACCOUNTNUMBER_MASKED]", matchAccountNumber⟩,
   ⟨"facilityWithPatient", "[FACILITYWITHPATIENT_MASKED]", matchFacility⟩]

/-- All matches a pattern's `g`-regex produces on `s` (the `while exec` loop
of `maskPHI`). -/
def patternMatches (p : PhiPattern) (s : List Char) : List (Nat × Nat) :=
  execAll p.matcher s (s.length + 1) 0

def substr (s : List Char) (a e : Nat) : List Char :=
  (s.drop a).take (e - a)

/-- JS `String.replace` with a string pattern: replace the first occurrence
of `needle` (if any). -/
def replaceFirst (needle repl : List Char) : List Char → List Char
  | [] => if needle.isPrefixOf ([] : List Char) then repl else []
  | c :: rest =>
    if needle.isPrefixOf (c :: rest) then repl ++ (c :: rest).drop needle.length
    else c :: replaceFirst needle repl rest

/-- One detected PHI entry `{type, value, position}`. -/
structure DetectedPHI where
  dtype : String
  value : String
  position : Nat
  deriving DecidableEq, Repr

/-- Embedding of `maskPHI` (src/lib/vector-storage.ts).  For each pattern, every match
found on the *original* text is recorded, and for each match the first
occurrence of the matched string in the running `maskedText` is replaced by
the pattern's mask token.  (The source interleaves the push and the replace
inside the `while` loop; the order of both effects is preserved here.) -/
def maskPHI (text : String) : String × List DetectedPHI :=
  let s := text.data
  let masked := PHI_PATTERNS.foldl
    (fun acc p =>
      (patternMatches p s).foldl
        (fun a me => replaceFirst (substr s me.1 me.2) p.token.data a) acc)
    s
  let detected := PHI_PATTERNS.flatMap
    (fun p => (patternMatches p s).map
      (fun me => ⟨p.ptype, (substr s me.1 me.2).asString, me.1⟩))
  (masked.asString, detected)

/-- Embedding of `containsPHI` (src/lib/vector-storage.ts): some pattern matches the
text. -/
def containsPHI (text : String) : Bool :=
  PHI_PATTERNS.any fun p => (scanFrom p.matcher text.data 0).isSome

/-! ### `anonymizeRecord` (src/lib/vector-storage.ts) -/

/-- JS truthiness of an optional string field: `undefined` and `""` are
falsy. -/
def jsTruthy (o : Option String) : Bool :=
  match o with
  | some t => t ≠ ""
  | none => false

/-- One `if (record.field) { ... maskPHI ... }` block of `anonymizeRecord`:
the contributed text chunk and the detected PHI values. -/
def anonymizeField (label : String) (o : Option String) : String × List String :=
  if jsTruthy o then
    let m := maskPHI (o.getD "")
    (label ++ ": " ++ m.1 ++ "\n", m.2.map (·.value))
  else ("", [])

/-- Embedding of `anonymizeRecord`: processes `diagnosis`, `medications`, `notes` in that
order, concatenates the masked chunks, trims the result, and collects the
raw values of all detected PHI. -/
def anonymizeRecord (diagnosis medications notes : Option String) :
    String × List String :=
  let d := anonymizeField "Diagnosis" diagnosis
  let m := anonymizeField "Medications" medications
  let n := anonymizeField "Clinical Notes" notes
  ((d.1 ++ m.1 ++ n.1).trim, d.2 ++ m.2 ++ n.2)

/-! ### Data pipeline (`validateRecord`, `processRecord`, `processBatch`) -/

/-- A raw medical record as `validateRecord` sees it (`unknown` in the
source): each declared string field may be missing.  `timestamp` is the
JSON serialisation of the `Date` field; it is not validated by
`validateRecord`. -/
structure URecord where
  id : Option String
  patientId : Option String
  name : Option String
  dob : Option String
  mrn : Option String
  diagnosis : Option String
  medications : Option String
  notes : Option String
  timestamp : Option String
  deriving DecidableEq, Repr

/-- Embedding of `validateRecord`: all eight declared string fields are present strings. -/
def validateRecord (r : URecord) : Bool :=
  r.id.isSome && r.patientId.isSome && r.name.isSome && r.dob.isSome &&
  r.mrn.isSome && r.diagnosis.isSome && r.medications.isSome && r.notes.isSome

/-- JS 32-bit signed wrap-around (JS `| 0` / `& hash` coercion `ToInt32`). -/
def toInt32 (x : Int) : Int :=
  ((x + 2 ^ 31) % 2 ^ 32) - 2 ^ 31

/-- One step of the rolling hash: `hash = (hash << 5) - hash + char` followed
by `hash = hash & hash` (both with 32-bit signed wrap-around). -/
def hashStep (h : Int) (c : Nat) : Int :=
  toInt32 (toInt32 (h * 32) - h + c)

/-- Embedding of `JSON.stringify` of a raw record, for records whose field values contain
no characters needing a JSON escape (true of every input considered here);
missing (`undefined`) fields are omitted, in insertion order. -/
def serializeRecord (r : URecord) : String :=
  let fields : List (String × Option String) :=
    [("id", r.id), ("patientId", r.patientId), ("name", r.name),
     ("dob", r.dob), ("mrn", r.mrn), ("diagnosis", r.diagnosis),
     ("medications", r.medications), ("notes", r.notes),
     ("timestamp", r.timestamp)]
  let parts := fields.filterMap fun kv =>
    kv.2.map fun v => "\"" ++ kv.1 ++ "\":\"" ++ v ++ "\""
  "\x7b" ++ String.intercalate "," parts ++ "\x7d"

/-- Embedding of `hashRecord`: rolling 32-bit hash of the serialised record, rendered as
the hex digits of its absolute value. -/
def hashRecord (r : URecord) : String :=
  let h := (serializeRecord r).data.foldl (fun h c => hashStep h c.toNat) 0
  (Nat.toDigits 16 h.natAbs).asString

/-- A processed medical record (the `processedAt : Date` wall-clock field of
the source is external input and is omitted; no claim mentions it). -/
structure ProcessedMedicalRecord where
  id : String
  anonymizedContent : String
  originalHash : String
  phiDetected : Bool
  phiRemoved : List String
  deriving DecidableEq, Repr

/-- Embedding of `processRecord`: PHI scan over the six clinical string fields, then
anonymization of `diagnosis`, `medications`, `notes`, plus the audit hash. -/
def processRecord (r : URecord) : ProcessedMedicalRecord :=
  let phiDetected :=
    containsPHI (r.name.getD "") || containsPHI (r.dob.getD "") ||
    containsPHI (r.mrn.getD "") || containsPHI (r.diagnosis.getD "") ||
    containsPHI (r.medications.getD "") || containsPHI (r.notes.getD "")
  let anon := anonymizeRecord r.diagnosis r.medications r.notes
  { id := r.id.getD ""
    anonymizedContent := anon.1
    originalHash := hashRecord r
    phiDetected := phiDetected
    phiRemoved := anon.2 }

structure BatchError where
  recordId : String
  error : String
  deriving DecidableEq, Repr

/-- The error-entry id `record?.id || "unknown"` (a missing or empty id is
falsy in JS). -/
def batchErrorId (r : URecord) : String :=
  match r.id with
  | some s => if s = "" then "unknown" else s
  | none => "unknown"

/-- Embedding of `processBatch`: each record is validated and processed independently;
a record failing validation contributes an error entry and processing
continues (nothing in the loop body can throw: `processRecord` is total). -/
def processBatch : List URecord → List ProcessedMedicalRecord × List BatchError
  | [] => ([], [])
  | r :: rs =>
    let rest := processBatch rs
    if validateRecord r then (processRecord r :: rest.1, rest.2)
    else (rest.1, ⟨batchErrorId r, "Invalid record format"⟩ :: rest.2)

/-! ### `processQuery` (src/lib/retrieval.ts, lines 162-185)

The externals (Supabase insert, embedding model, generation model) are I/O
capabilities; the pure content of the stage is which audit row is inserted
and which query text is handed to `retrieveContext` and
`generateClinicalResponse`. -/

/-- The row `processQuery` inserts into `audit_logs` when PHI is detected:
`{user_id, action: "PHI_DETECTED_IN_QUERY", details: {detectedPHI},
severity: "medium"}`.  The `details` field carries the full `detectedPHI`
array of `maskPHI`, raw matched values included. -/
structure AuditInsert where
  userId : String
  action : String
  detailsDetectedPHI : List DetectedPHI
  severity : String
  deriving DecidableEq, Repr

/-- The audit row `processQuery` emits for a query (none when no PHI was
detected). -/
def processQueryAudit (userId query : String) : Option AuditInsert :=
  let d := (maskPHI query).2
  if d.length > 0 then
    some ⟨userId, "PHI_DETECTED_IN_QUERY", d, "medium"⟩
  else none

/-- The query text `processQuery` passes to `retrieveContext` and
`generateClinicalResponse`: always the masked text. -/
def processQueryRetrievalText (query : String) : String :=
  (maskPHI query).1

/-! ### Encryption (`encryptData` / `decryptData`, src/lib/embeddings.ts)

Data is modelled at the byte level: `TextEncoder`/`TextDecoder` and
`btoa`/`atob` are external platform primitives forming inverse pairs between
strings and byte sequences, so the pipeline is modelled directly on the byte
sequences they transport.  Keys are opaque values modelled as `Nat`. -/

/-- Modelled from the spec: `crypto.subtle.encrypt` with AES-GCM is an
external platform capability; the spec requires an authenticated cipher whose
decryption recovers the plaintext under the right key and fails under a wrong
key.  It is modelled as an ideal authenticated cipher: the ciphertext
determines the plaintext together with the key it was produced under. -/
def subtleEncrypt (key : Nat) (iv : List Nat) (data : List Nat) : List Nat :=
  key :: data

/-- Modelled from the spec: `crypto.subtle.decrypt` with AES-GCM — the
inverse of the ideal cipher; authentication fails (the promise rejects with
an `OperationError`) when the key does not match. -/
def subtleDecrypt (key : Nat) (iv : List Nat) (ct : List Nat) :
    Except String (List Nat) :=
  match ct with
  | k :: data => if k = key then .ok data else .error "OperationError"
  | [] => .error "OperationError"

/-- Embedding of `encryptData`: a fresh 12-byte random IV (passed here as the `iv`
argument, the value `crypto.getRandomValues` produced) is prepended to the
ciphertext and the combined bytes are returned (base64 transport encoding is
a byte-level bijection and is elided). -/
def encryptData (data : List Nat) (key : Nat) (iv : List Nat) : List Nat :=
  iv ++ subtleEncrypt key iv data

/-- Embedding of `decryptData`: split the combined bytes into the 12-byte IV and the
ciphertext, then decrypt. -/
def decryptData (blob : List Nat) (key : Nat) : Except String (List Nat) :=
  subtleDecrypt key (blob.take 12) (blob.drop 12)

/-! ### Retrieval context and response confidence (src/lib/retrieval.ts) -/

/-- One entry of `RetrievalContext.relevantRecords`.  Similarity scores are
modelled as rationals (exact arithmetic in place of IEEE floats). -/
structure RetrievedRecord where
  resourceId : String
  resourceType : String
  content : String
  similarity : ℚ
  clinicalContext : String
  deriving DecidableEq, Repr

structure RetrievalContext where
  query : String
  relevantRecords : List RetrievedRecord
  deriving DecidableEq, Repr

structure ClinicalResponse where
  response : String
  confidence : ℚ
  disclaimer : String
  deriving DecidableEq, Repr

def RESPONSE_DISCLAIMER : String :=
  "This response is generated from anonymized FHIR medical records and should not be used as a substitute for professional medical advice. Always consult with qualified healthcare providers for diagnosis and treatment decisions."

/-- The `reduce((sum, r) => sum + r.similarity, 0)` accumulator. -/
def similaritySum (ctx : RetrievalContext) : ℚ :=
  (ctx.relevantRecords.map (·.similarity)).sum

/-- The confidence computation of `generateClinicalResponse`:
`relevantRecords.length > 0 ? sum / length : 0` followed by
`Math.min(confidence, 1)`. -/
def contextConfidence (ctx : RetrievalContext) : ℚ :=
  let c :=
    if ctx.relevantRecords.length > 0 then
      similaritySum ctx / (ctx.relevantRecords.length : ℚ)
    else 0
  min c 1

/-- Embedding of `generateClinicalResponse`, success path: the generated text is produced
by the external generation capability and enters as the `genText` argument;
the response carries the computed confidence and the fixed disclaimer. -/
def generateClinicalResponse (genText : String) (ctx : RetrievalContext) :
    ClinicalResponse :=
  ⟨genText, contextConfidence ctx, RESPONSE_DISCLAIMER⟩

/-- The arithmetic mean of the context's similarity scores (for a nonempty
record list). -/
def contextMean (ctx : RetrievalContext) : ℚ :=
  similaritySum ctx / (ctx.relevantRecords.length : ℚ)

/-- Clamping to the interval `[0,1]`, as the spec's wording prescribes for
the confidence. -/
def clamp01 (x : ℚ) : ℚ :=
  max 0 (min x 1)

/-! ### Concrete batch-scenario records (three records, one missing a
required field) -/

def batchRec1 : URecord :=
  ⟨some "r1", some "p1", some "Alice Lee", some "01/02/1980", some "ABC123",
   some "diabetes", some "insulin", some "stable",
   some "2024-01-01T00:00:00.000Z"⟩

/-- The invalid record: the required `name` field is missing. -/
def batchRec2 : URecord :=
  { batchRec1 with id := some "r2", name := none }

def batchRec3 : URecord :=
  { batchRec1 with id := some "r3" }

/-! ### Cosine similarity and similarity search (medical-embeddings module)

Float arithmetic is modelled over `ℝ` (`Math.sqrt` forces real square
roots, so this part of the development is noncomputable). -/

section Similarity

attribute [local instance] Classical.propDecidable

/-- A stored medical embedding; the metadata fields (`sourceText`, term
lists, timestamps) play no role in any function verified here and are
omitted. -/
structure MedicalEmbedding where
  id : String
  resourceId : String
  vector : List ℝ

/-- The loop accumulating `dotProduct` (and, at `a = b`, the squared
magnitudes) of `cosineSimilarity`. -/
noncomputable def dotProduct (a b : List ℝ) : ℝ :=
  (List.zipWith (· * ·) a b).sum

/-- Embedding of `cosineSimilarity`: throws on a length mismatch; returns `0` when either
magnitude is zero; otherwise `dot / (‖a‖ * ‖b‖)`. -/
noncomputable def cosineSimilarity (a b : List ℝ) : Except String ℝ :=
  if a.length ≠ b.length then .error "Vectors must have the same length"
  else if Real.sqrt (dotProduct a a) = 0 ∨ Real.sqrt (dotProduct b b) = 0 then
    .ok 0
  else
    .ok (dotProduct a b / (Real.sqrt (dotProduct a a) * Real.sqrt (dotProduct b b)))

/-- The `embeddings.map(...)` step of `findSimilarEmbeddings`: candidates are
scored in order; the first mismatched vector throws out of the whole `map`. -/
noncomputable def scoreCandidates (q : List ℝ) :
    List MedicalEmbedding → Except String (List (MedicalEmbedding × ℝ))
  | [] => .ok []
  | e :: es =>
    match cosineSimilarity q e.vector with
    | .error msg => .error msg
    | .ok s =>
      match scoreCandidates q es with
      | .error msg => .error msg
      | .ok rest => .ok ((e, s) :: rest)

/-- The `.filter(item => item.similarity > threshold)` step. -/
noncomputable def keepAbove (θ : ℝ) :
    List (MedicalEmbedding × ℝ) → List (MedicalEmbedding × ℝ)
  | [] => []
  | x :: xs => if θ < x.2 then x :: keepAbove θ xs else keepAbove θ xs

/-- Insert into a descending-by-key list, after every element whose key is
`≥` the new key (so equal keys keep earlier-inserted elements first). -/
noncomputable def insertDescBy {α : Type} (f : α → ℝ) (x : α) :
    List α → List α
  | [] => [x]
  | y :: ys => if f y < f x then x :: y :: ys else y :: insertDescBy f x ys

/-- The `.sort((a, b) => b.similarity - a.similarity)` step.
`Array.prototype.sort` is guaranteed stable (ES2019), and with the
consistent score comparator its result is the unique stable descending
order; `sortDescBy` realises it by inserting the candidates in their
original order. -/
noncomputable def sortDescBy {α : Type} (f : α → ℝ) (l : List α) : List α :=
  l.foldl (fun acc x => insertDescBy f x acc) []

/-- Embedding of `findSimilarEmbeddings` (medical-embeddings module): score, filter by
strict threshold, stable-sort descending, truncate to `topK`. -/
noncomputable def findSimilarEmbeddings (q : List ℝ)
    (embs : List MedicalEmbedding) (topK : Nat) (threshold : ℝ) :
    Except String (List (MedicalEmbedding × ℝ)) :=
  match scoreCandidates q embs with
  | .error msg => .error msg
  | .ok sims =>
    .ok ((sortDescBy (fun p => p.2) (keepAbove threshold sims)).take topK)

end Similarity

/-! ## Theorems -/

/-- C1: the spec claims that for every input text, `containsPHI` applied to
`maskPHI(text).maskedText` returns `false`.  The code violates this: on
`"a111-22-3333 111-22-3333"` the detector finds the SSN at position 13, but
the masking step replaces the *first* occurrence of the matched string
(inside the innocent prefix `a111-22-3333`), so the detected SSN survives in
the masked output and `containsPHI` still reports `true` on it. -/
theorem maskPHI_self_consistency_violated :
    (maskPHI "a111-22-3333 111-22-3333").2 =
      [⟨"ssn", "111-22-3333", 13⟩] ∧
    (maskPHI "a111-22-3333 111-22-3333").1 = "a[SSN_MASKED] 111-22-3333" ∧
    containsPHI (maskPHI "a111-22-3333 111-22-3333").1 = true := by
  decide

/-- C2: the spec claims the audit event emitted by `processQuery` on a
PHI-bearing query records only kinds and counts, never raw matched values.
The code inserts `details: { detectedPHI }` into `audit_logs`, and
`detectedPHI` carries the full matched strings: on the query
`"Patient: John Smith, DOB: 01/02/1980"` the inserted row contains the raw
values `"Patient: John Smith"` and `"DOB: 01/02/1980"`.  The second half of
the claim does hold: the pipeline continues with the redacted text. -/
theorem processQuery_audit_contains_raw_phi :
    processQueryAudit "u1" "Patient: John Smith, DOB: 01/02/1980" =
      some ⟨"u1", "PHI_DETECTED_IN_QUERY",
        [⟨"patientName", "Patient: John Smith", 0⟩,
         ⟨"dob", "DOB: 01/02/1980", 21⟩], "medium"⟩ ∧
    processQueryRetrievalText "Patient: John Smith, DOB: 01/02/1980" =
      "[PATIENTNAME_MASKED], [DOB_MASKED]" := by
  decide

/-- C3 (counterexample): the spec's scenario says the redacted text reads
`"Patient: [PATIENTNAME_MASKED], DOB: [DOB_MASKED], diagnosed with
diabetes"`, but `maskPHI` replaces the whole regex match — keyword label
included — so the produced text differs from the spec's. -/
theorem maskPHI_scenario_not_spec_text :
    (maskPHI "Patient: John Smith, DOB: 01/02/1980, diagnosed with diabetes").1 ≠
      "Patient: [PATIENTNAME_MASKED], DOB: [DOB_MASKED], diagnosed with diabetes" := by
  decide

/-- C3 (amended): on the scenario input, `maskPHI` reports a patient-name
match (`"Patient: John Smith"`) and a DOB match (`"DOB: 01/02/1980"`), the
masked output is exactly `"[PATIENTNAME_MASKED], [DOB_MASKED], diagnosed
with diabetes"` (the keyword labels are part of the masked span), and
`containsPHI` on that masked output returns `false`. -/
theorem maskPHI_scenario :
    maskPHI "Patient: John Smith, DOB: 01/02/1980, diagnosed with diabetes" =
      ("[PATIENTNAME_MASKED], [DOB_MASKED], diagnosed with diabetes",
       [⟨"patientName", "Patient: John Smith", 0⟩,
        ⟨"dob", "DOB: 01/02/1980", 21⟩]) ∧
    containsPHI "[PATIENTNAME_MASKED], [DOB_MASKED], diagnosed with diabetes" =
      false := by
  decide

/-- C5: decrypting an encryption under the same key returns the plaintext,
for every plaintext and every fresh 12-byte IV; decrypting under a different
key fails with an error and never silently returns data. -/
theorem encryptData_roundtrip (v : List Nat) (key key2 : Nat) (iv : List Nat)
    (hiv : iv.length = 12) :
    decryptData (encryptData v key iv) key = .ok v ∧
    (key2 ≠ key → ∃ msg, decryptData (encryptData v key iv) key2 = .error msg) := by
  unfold decryptData encryptData subtleEncrypt subtleDecrypt
  rw [← hiv, List.drop_left]
  refine ⟨by simp, fun hk => ⟨"OperationError", ?_⟩⟩
  simp [if_neg (by exact fun h => hk h.symm : ¬ key = key2)]

/-- C5 (witness): the round-trip and wrong-key failure at a concrete
plaintext, key pair and IV. -/
theorem encryptData_roundtrip_witness :
    (List.replicate 12 0).length = 12 ∧ (8 : Nat) ≠ 7 ∧
    decryptData (encryptData [1, 2, 3] 7 (List.replicate 12 0)) 7 = .ok [1, 2, 3] ∧
    (∃ msg, decryptData (encryptData [1, 2, 3] 7 (List.replicate 12 0)) 8 = .error msg) :=
  ⟨by decide, by decide,
   (encryptData_roundtrip [1, 2, 3] 7 8 (List.replicate 12 0) (by decide)).1,
   (encryptData_roundtrip [1, 2, 3] 7 8 (List.replicate 12 0) (by decide)).2 (by decide)⟩

/-- C6 (counterexample): the spec claims the confidence equals the mean of
the context's similarity scores clamped to `[0,1]`.  The code only applies
`Math.min(confidence, 1)` — there is no lower clamp — so a context whose
single record has similarity `-1` yields confidence `-1` while the clamped
mean is `0`. -/
theorem contextConfidence_not_clamped_below :
    (generateClinicalResponse "t"
        ⟨"q", [⟨"a", "Condition", "c", -1, "general"⟩]⟩).confidence = -1 ∧
    clamp01 (contextMean ⟨"q", [⟨"a", "Condition", "c", -1, "general"⟩]⟩) = 0 ∧
    (-1 : ℚ) ≠ 0 := by
  refine ⟨?_, ?_, by norm_num⟩ <;>
    simp [generateClinicalResponse, contextConfidence, contextMean, clamp01,
      similaritySum]

/-- C6 (amended): the confidence is `0` on an empty context, and on a
nonempty context equals the mean clamped *above* at `1` (`min mean 1`);
whenever the mean is nonnegative this coincides with the spec's two-sided
clamp to `[0,1]`. -/
theorem contextConfidence_spec (genText : String) (ctx : RetrievalContext) :
    (ctx.relevantRecords = [] →
      (generateClinicalResponse genText ctx).confidence = 0) ∧
    (ctx.relevantRecords ≠ [] →
      (generateClinicalResponse genText ctx).confidence = min (contextMean ctx) 1 ∧
      (0 ≤ contextMean ctx →
        (generateClinicalResponse genText ctx).confidence = clamp01 (contextMean ctx))) := by
  constructor
  · intro h
    simp [generateClinicalResponse, contextConfidence, h]
  · intro h
    have hlen : ctx.relevantRecords.length > 0 := List.length_pos.mpr h
    have hconf : (generateClinicalResponse genText ctx).confidence =
        min (contextMean ctx) 1 := by
      simp [generateClinicalResponse, contextConfidence, contextMean, hlen]
    refine ⟨hconf, fun hm => ?_⟩
    rw [hconf, clamp01, max_eq_right (le_min hm zero_le_one)]

/-- C6 (witness): a concrete nonempty context with nonnegative mean. -/
theorem contextConfidence_spec_witness :
    (([⟨"a", "Condition", "c", 1/2, "general"⟩] : List RetrievedRecord) ≠ []) ∧
    (generateClinicalResponse "t"
        ⟨"q", [⟨"a", "Condition", "c", 1/2, "general"⟩]⟩).confidence =
      min (contextMean ⟨"q", [⟨"a", "Condition", "c", 1/2, "general"⟩]⟩) 1 :=
  ⟨by decide,
   ((contextConfidence_spec "t"
      ⟨"q", [⟨"a", "Condition", "c", 1/2, "general"⟩]⟩).2 (by decide)).1⟩

/-- C8: batch processing is total (processed and error entries account for
every input record), every record failing validation is reported in the
errors list under its id, and the concrete three-record batch with one
missing required field yields two processed records and exactly one error
entry. -/
theorem processBatch_spec (rs : List URecord) :
    (processBatch rs).1.length + (processBatch rs).2.length = rs.length ∧
    (∀ r ∈ rs, validateRecord r = false →
      (⟨batchErrorId r, "Invalid record format"⟩ : BatchError) ∈ (processBatch rs).2) ∧
    ((processBatch [batchRec1, batchRec2, batchRec3]).1.length = 2 ∧
     (processBatch [batchRec1, batchRec2, batchRec3]).2 =
       [⟨"r2", "Invalid record format"⟩]) := by
  refine ⟨?_, ?_, by decide, by decide⟩
  · induction rs with
    | nil => rfl
    | cons r rs ih =>
      cases h : validateRecord r
      · simp only [processBatch, h, Bool.false_eq_true, if_false, List.length_cons]
        omega
      · simp only [processBatch, h, if_true, List.length_cons]
        omega
  · induction rs with
    | nil => intro r hr; cases hr
    | cons r rs ih =>
      intro r' hr' hval
      rcases List.mem_cons.mp hr' with rfl | hmem
      · rw [processBatch, hval]
        simp
      · cases h : validateRecord r
        · rw [processBatch, h]
          simp only [Bool.false_eq_true, if_false]
          exact List.mem_cons_of_mem _ (ih r' hmem hval)
        · rw [processBatch, h]
          simp only [if_true]
          exact ih r' hmem hval

/-- C8 (witness): the invalid record of the scenario batch is reported under
its id. -/
theorem processBatch_spec_witness :
    validateRecord batchRec2 = false ∧
    (⟨"r2", "Invalid record format"⟩ : BatchError) ∈
      (processBatch [batchRec1, batchRec2, batchRec3]).2 :=
  ⟨by decide,
   by
    have h := (processBatch_spec [batchRec1, batchRec2, batchRec3]).2.1 batchRec2
      (by simp) (by decide)
    simpa using h⟩

/-- A pattern produces at least one `exec` match exactly when its regex
matches somewhere in the text. -/
theorem patternMatches_ne_nil_iff (p : PhiPattern) (s : List Char) :
    patternMatches p s ≠ [] ↔ (scanFrom p.matcher s 0).isSome := by
  unfold patternMatches
  cases h : scanFrom p.matcher s 0 with
  | none => simp [execAll, h]
  | some me => simp [execAll, h]

/-- C10: `containsPHI` returns `true` exactly when `maskPHI` reports at
least one detected PHI match — both range over the same pattern set, the
former testing each regex, the latter running each regex's `exec` loop. -/
theorem containsPHI_iff_maskPHI_detects (text : String) :
    containsPHI text = true ↔ (maskPHI text).2 ≠ [] := by
  have key : ∀ ps : List PhiPattern,
      ((ps.any fun p => (scanFrom p.matcher text.data 0).isSome) = true ↔
        (ps.flatMap fun p => (patternMatches p text.data).map
          fun me => (⟨p.ptype, (substr text.data me.1 me.2).asString, me.1⟩ :
            DetectedPHI)) ≠ []) := by
    intro ps
    induction ps with
    | nil => simp
    | cons p ps ih =>
      simp only [List.any_cons, Bool.or_eq_true, List.flatMap_cons, ne_eq,
        List.append_eq_nil, not_and]
      constructor
      · rintro (hp | hps)
        · intro hmap
          exact absurd ((patternMatches_ne_nil_iff p text.data).mpr hp)
            (by simpa using List.map_eq_nil_iff.mp hmap)
        · intro _
          exact ih.mp hps
      · intro h
        by_cases hmap : ((patternMatches p text.data).map
            fun me => (⟨p.ptype, (substr text.data me.1 me.2).asString, me.1⟩ :
              DetectedPHI)) = []
        · exact Or.inr (ih.mpr (h hmap))
        · refine Or.inl ((patternMatches_ne_nil_iff p text.data).mp ?_)
          intro hnil
          exact hmap (by simp [hnil])
  simpa [containsPHI, maskPHI] using key PHI_PATTERNS

section SimilarityTheorems

attribute [local instance] Classical.propDecidable

theorem dotProduct_cons (x y : ℝ) (xs ys : List ℝ) :
    dotProduct (x :: xs) (y :: ys) = x * y + dotProduct xs ys := by
  simp [dotProduct]

theorem dotProduct_self_nonneg (a : List ℝ) : 0 ≤ dotProduct a a := by
  induction a with
  | nil => simp [dotProduct]
  | cons x xs ih =>
    rw [dotProduct_cons]
    exact add_nonneg (mul_self_nonneg x) ih

theorem dotProduct_self_pos (a : List ℝ) (h : ∃ x ∈ a, x ≠ 0) :
    0 < dotProduct a a := by
  induction a with
  | nil => simp at h
  | cons x xs ih =>
    rw [dotProduct_cons]
    obtain ⟨y, hy, hy0⟩ := h
    rcases List.mem_cons.mp hy with rfl | hmem
    · exact add_pos_of_pos_of_nonneg (mul_self_pos.mpr hy0) (dotProduct_self_nonneg xs)
    · exact add_pos_of_nonneg_of_pos (mul_self_nonneg x) (ih ⟨y, hmem, hy0⟩)

/-- C9: for equal-length vectors, `cosineSimilarity` never errors: it
returns `dot / (‖a‖ * ‖b‖)` when both magnitudes are nonzero and `0` when
either magnitude is zero; consequently `cosineSimilarity a a = 1` for every
vector with a nonzero entry. -/
theorem cosineSimilarity_spec (a b : List ℝ) (hlen : a.length = b.length) :
    (Real.sqrt (dotProduct a a) ≠ 0 → Real.sqrt (dotProduct b b) ≠ 0 →
      cosineSimilarity a b = .ok (dotProduct a b /
        (Real.sqrt (dotProduct a a) * Real.sqrt (dotProduct b b)))) ∧
    (Real.sqrt (dotProduct a a) = 0 ∨ Real.sqrt (dotProduct b b) = 0 →
      cosineSimilarity a b = .ok 0) ∧
    ((∃ x ∈ a, x ≠ 0) → cosineSimilarity a a = .ok 1) := by
  refine ⟨fun h1 h2 => ?_, fun h => ?_, fun hx => ?_⟩
  · unfold cosineSimilarity
    rw [if_neg (by simp [hlen]), if_neg (by tauto)]
  · unfold cosineSimilarity
    rw [if_neg (by simp [hlen]), if_pos h]
  · have hpos := dotProduct_self_pos a hx
    have hs : Real.sqrt (dotProduct a a) ≠ 0 :=
      ne_of_gt (Real.sqrt_pos.mpr hpos)
    unfold cosineSimilarity
    rw [if_neg (by simp), if_neg (by tauto),
      Real.mul_self_sqrt (le_of_lt hpos), div_self (ne_of_gt hpos)]

/-- C9 (witness): the self-similarity of the nonzero vector `[1]`. -/
theorem cosineSimilarity_spec_witness :
    ([(1 : ℝ)].length = [(1 : ℝ)].length) ∧ (∃ x ∈ [(1 : ℝ)], x ≠ 0) ∧
    cosineSimilarity [(1 : ℝ)] [(1 : ℝ)] = .ok 1 :=
  ⟨rfl, ⟨1, by simp, one_ne_zero⟩,
   (cosineSimilarity_spec [1] [1] rfl).2.2 ⟨1, by simp, one_ne_zero⟩⟩

theorem mem_insertDescBy {α : Type} (f : α → ℝ) (x : α) (l : List α) (z : α) :
    z ∈ insertDescBy f x l ↔ z = x ∨ z ∈ l := by
  induction l with
  | nil => simp [insertDescBy]
  | cons y ys ih =>
    by_cases h : f y < f x
    · rw [insertDescBy, if_pos h]
      simp [or_comm, or_left_comm]
    · rw [insertDescBy, if_neg h]
      simp only [List.mem_cons, ih]
      tauto

theorem insertDescBy_perm {α : Type} (f : α → ℝ) (x : α) (l : List α) :
    (insertDescBy f x l).Perm (x :: l) := by
  induction l with
  | nil => simp [insertDescBy]
  | cons y ys ih =>
    by_cases h : f y < f x
    · rw [insertDescBy, if_pos h]
    · rw [insertDescBy, if_neg h]
      exact (ih.cons y).trans (List.Perm.swap x y ys)

theorem sortDescBy_foldl_perm {α : Type} (f : α → ℝ) :
    ∀ (l acc : List α),
      (l.foldl (fun a x => insertDescBy f x a) acc).Perm (l ++ acc) := by
  intro l
  induction l with
  | nil => intro acc; simp
  | cons x xs ih =>
    intro acc
    simp only [List.foldl_cons, List.cons_append]
    exact (ih (insertDescBy f x acc)).trans
      ((List.Perm.append_left xs (insertDescBy_perm f x acc)).trans
        List.perm_middle)

theorem sortDescBy_perm {α : Type} (f : α → ℝ) (l : List α) :
    (sortDescBy f l).Perm l := by
  simpa [sortDescBy] using sortDescBy_foldl_perm f l []

theorem pairwise_insertDescBy {α : Type} (f : α → ℝ) (x : α) (l : List α)
    (h : l.Pairwise fun a b => f b ≤ f a) :
    (insertDescBy f x l).Pairwise fun a b => f b ≤ f a := by
  induction l with
  | nil => simp [insertDescBy]
  | cons y ys ih =>
    rcases List.pairwise_cons.mp h with ⟨hy, hys⟩
    by_cases hcmp : f y < f x
    · rw [insertDescBy, if_pos hcmp]
      refine List.pairwise_cons.mpr ⟨?_, h⟩
      intro z hz
      rcases List.mem_cons.mp hz with rfl | hz
      · exact le_of_lt hcmp
      · exact (hy z hz).trans (le_of_lt hcmp)
    · rw [insertDescBy, if_neg hcmp]
      refine List.pairwise_cons.mpr ⟨?_, ih hys⟩
      intro z hz
      rcases (mem_insertDescBy f x ys z).mp hz with rfl | hz
      · exact le_of_not_lt hcmp
      · exact hy z hz

theorem pairwise_sortDescBy_foldl {α : Type} (f : α → ℝ) :
    ∀ (l acc : List α), acc.Pairwise (fun a b => f b ≤ f a) →
      (l.foldl (fun a x => insertDescBy f x a) acc).Pairwise
        fun a b => f b ≤ f a := by
  intro l
  induction l with
  | nil => intro acc h; simpa using h
  | cons x xs ih =>
    intro acc h
    exact ih _ (pairwise_insertDescBy f x acc h)

theorem pairwise_sortDescBy {α : Type} (f : α → ℝ) (l : List α) :
    (sortDescBy f l).Pairwise fun a b => f b ≤ f a :=
  pairwise_sortDescBy_foldl f l [] (by simp)

theorem pairwise_stab_insertDescBy {γ : Type} (g : γ → ℝ) (t : γ → Nat)
    (x : γ) (l : List γ)
    (h : l.Pairwise fun a b => g b < g a ∨ (g a = g b ∧ t a < t b))
    (hx : ∀ y ∈ l, t y < t x) :
    (insertDescBy g x l).Pairwise
      fun a b => g b < g a ∨ (g a = g b ∧ t a < t b) := by
  induction l with
  | nil => simp [insertDescBy]
  | cons y ys ih =>
    rcases List.pairwise_cons.mp h with ⟨hy, hys⟩
    by_cases hcmp : g y < g x
    · rw [insertDescBy, if_pos hcmp]
      refine List.pairwise_cons.mpr ⟨?_, h⟩
      intro z hz
      rcases List.mem_cons.mp hz with rfl | hz
      · exact Or.inl hcmp
      · rcases hy z hz with h1 | ⟨h1, _⟩
        · exact Or.inl (h1.trans hcmp)
        · exact Or.inl (by rw [← h1]; exact hcmp)
    · rw [insertDescBy, if_neg hcmp]
      refine List.pairwise_cons.mpr
        ⟨?_, ih hys fun z hz => hx z (List.mem_cons_of_mem y hz)⟩
      intro z hz
      rcases (mem_insertDescBy g x ys z).mp hz with rfl | hz
      · rcases lt_or_eq_of_le (le_of_not_lt hcmp) with h1 | h1
        · exact Or.inl h1
        · exact Or.inr ⟨h1.symm, hx y (List.mem_cons_self y ys)⟩
      · exact hy z hz

theorem pairwise_stab_foldl {γ : Type} (g : γ → ℝ) (t : γ → Nat) :
    ∀ (l acc : List γ),
      acc.Pairwise (fun a b => g b < g a ∨ (g a = g b ∧ t a < t b)) →
      (∀ y ∈ acc, ∀ z ∈ l, t y < t z) →
      l.Pairwise (fun a b => t a < t b) →
      (l.foldl (fun a x => insertDescBy g x a) acc).Pairwise
        fun a b => g b < g a ∨ (g a = g b ∧ t a < t b) := by
  intro l
  induction l with
  | nil => intro acc h _ _; simpa using h
  | cons x xs ih =>
    intro acc hacc hcross hl
    rcases List.pairwise_cons.mp hl with ⟨hx, hxs⟩
    simp only [List.foldl_cons]
    refine ih _ (pairwise_stab_insertDescBy g t x acc hacc
      fun y hy => hcross y hy x (List.mem_cons_self x xs)) ?_ hxs
    intro y hy z hz
    rcases (mem_insertDescBy g x acc y).mp hy with rfl | hy
    · exact hx z hz
    · exact hcross y hy z (List.mem_cons_of_mem x hz)

theorem pairwise_stab_sortDescBy {γ : Type} (g : γ → ℝ) (t : γ → Nat)
    (l : List γ) (hl : l.Pairwise fun a b => t a < t b) :
    (sortDescBy g l).Pairwise
      fun a b => g b < g a ∨ (g a = g b ∧ t a < t b) :=
  pairwise_stab_foldl g t l [] (by simp) (by simp) hl

theorem map_snd_insertDescBy {α : Type} (g : α → ℝ) (x : Nat × α)
    (l : List (Nat × α)) :
    (insertDescBy (fun p => g p.2) x l).map Prod.snd =
      insertDescBy g x.2 (l.map Prod.snd) := by
  induction l with
  | nil => simp [insertDescBy]
  | cons y ys ih =>
    by_cases h : g y.2 < g x.2
    · simp [insertDescBy, h]
    · simp [insertDescBy, h, ih]

theorem map_snd_sortDescBy_foldl {α : Type} (g : α → ℝ) :
    ∀ (l acc : List (Nat × α)),
      (l.foldl (fun a x => insertDescBy (fun p => g p.2) x a) acc).map Prod.snd =
        (l.map Prod.snd).foldl (fun a x => insertDescBy g x a)
          (acc.map Prod.snd) := by
  intro l
  induction l with
  | nil => intro acc; simp
  | cons x xs ih =>
    intro acc
    simp only [List.foldl_cons, List.map_cons]
    rw [ih, map_snd_insertDescBy]

theorem map_snd_sortDescBy {α : Type} (g : α → ℝ) (l : List (Nat × α)) :
    (sortDescBy (fun p => g p.2) l).map Prod.snd =
      sortDescBy g (l.map Prod.snd) := by
  simpa [sortDescBy] using map_snd_sortDescBy_foldl g l []

theorem keepAbove_mem_gt (θ : ℝ) :
    ∀ (l : List (MedicalEmbedding × ℝ)) (z : MedicalEmbedding × ℝ),
      z ∈ keepAbove θ l → θ < z.2 := by
  intro l
  induction l with
  | nil => intro z h; simp [keepAbove] at h
  | cons x xs ih =>
    intro z h
    by_cases hx : θ < x.2
    · rw [keepAbove, if_pos hx] at h
      rcases List.mem_cons.mp h with rfl | h
      · exact hx
      · exact ih z h
    · rw [keepAbove, if_neg hx] at h
      exact ih z h

theorem enum_pairwise_fst {α : Type} (l : List α) :
    l.enum.Pairwise fun a b => a.1 < b.1 := by
  have h : (l.enum.map Prod.fst).Pairwise (· < ·) := by
    rw [List.enum_map_fst]
    exact List.pairwise_lt_range _
  exact List.pairwise_map.mp h

/-- C4: a successful similarity search returns at most `topK` results, every
returned score is strictly above the threshold, the results are in
descending score order, and the result list is exactly the stable descending
ordering of the above-threshold candidates truncated to `topK`: it arises
from sorting the index-tagged eligible candidates into an order that is
strictly descending by score with exact ties resolved by original storage
index, and that sorted list is a permutation of exactly the eligible
candidates. -/
theorem findSimilarEmbeddings_spec (q : List ℝ) (embs : List MedicalEmbedding)
    (topK : Nat) (θ : ℝ) (res : List (MedicalEmbedding × ℝ))
    (h : findSimilarEmbeddings q embs topK θ = .ok res) :
    res.length ≤ topK ∧
    (∀ x ∈ res, θ < x.2) ∧
    (res.Pairwise fun a b => b.2 ≤ a.2) ∧
    ∀ sc, scoreCandidates q embs = .ok sc →
      res = ((sortDescBy (fun p => p.2.2) (keepAbove θ sc).enum).take topK).map
        Prod.snd ∧
      (((sortDescBy (fun p => p.2.2) (keepAbove θ sc).enum).take topK).Pairwise
        fun a b => b.2.2 < a.2.2 ∨ (a.2.2 = b.2.2 ∧ a.1 < b.1)) ∧
      (sortDescBy (fun p => p.2) (keepAbove θ sc)).Perm (keepAbove θ sc) := by
  unfold findSimilarEmbeddings at h
  cases hsc : scoreCandidates q embs with
  | error msg => rw [hsc] at h; cases h
  | ok sims =>
    rw [hsc] at h
    have hres : res = (sortDescBy (fun p => p.2) (keepAbove θ sims)).take topK :=
      (Except.ok.inj h).symm
    refine ⟨?_, ?_, ?_, ?_⟩
    · rw [hres]
      exact List.length_take_le _ _
    · intro x hx
      rw [hres] at hx
      exact keepAbove_mem_gt θ sims x
        (((sortDescBy_perm (fun p => p.2) (keepAbove θ sims)).mem_iff).mp
          (List.take_subset _ _ hx))
    · rw [hres]
      exact (pairwise_sortDescBy (fun p => p.2) (keepAbove θ sims)).sublist
        (List.take_sublist _ _)
    · intro sc hsc2
      cases Except.ok.inj hsc2
      refine ⟨?_, ?_, sortDescBy_perm _ _⟩
      · rw [hres, List.map_take,
          map_snd_sortDescBy (fun p : MedicalEmbedding × ℝ => p.2)
            ((keepAbove θ sims).enum),
          List.enum_map_snd]
      · exact (pairwise_stab_sortDescBy
          (fun p : Nat × (MedicalEmbedding × ℝ) => p.2.2) Prod.fst
          ((keepAbove θ sims).enum) (enum_pairwise_fst _)).sublist
          (List.take_sublist _ _)

/-- Evaluation helper: the cosine self-similarity of the vector `[1]`. -/
theorem cosineSimilarity_one_one : cosineSimilarity [(1 : ℝ)] [1] = .ok 1 := by
  have hd : dotProduct [(1 : ℝ)] [1] = 1 := by simp [dotProduct]
  unfold cosineSimilarity
  rw [if_neg (by simp), hd, Real.sqrt_one, if_neg (by norm_num)]
  norm_num

/-- Evaluation helper: a singleton well-dimensioned store returns its only
candidate with score `1`. -/
theorem findSimilarEmbeddings_one_eval :
    findSimilarEmbeddings [(1 : ℝ)] [⟨"e1", "r1", [1]⟩] 5 (3 / 10) =
      .ok [(⟨"e1", "r1", [1]⟩, (1 : ℝ))] := by
  have hscore : scoreCandidates [(1 : ℝ)] [⟨"e1", "r1", [1]⟩] =
      .ok [(⟨"e1", "r1", [1]⟩, (1 : ℝ))] := by
    rw [scoreCandidates, cosineSimilarity_one_one, scoreCandidates]
  have hkeep : keepAbove (3 / 10) [(⟨"e1", "r1", [1]⟩, (1 : ℝ))] =
      [(⟨"e1", "r1", [1]⟩, (1 : ℝ))] := by
    rw [keepAbove, if_pos (by norm_num : (3 / 10 : ℝ) < 1), keepAbove]
  simp only [findSimilarEmbeddings, hscore, hkeep, sortDescBy,
    List.foldl_cons, List.foldl_nil, insertDescBy]
  rfl

/-- C4 (witness): the theorem instantiated at a concrete well-dimensioned
store. -/
theorem findSimilarEmbeddings_spec_witness :
    (findSimilarEmbeddings [(1 : ℝ)] [⟨"e1", "r1", [1]⟩] 5 (3 / 10) =
      .ok [(⟨"e1", "r1", [1]⟩, (1 : ℝ))]) ∧
    (([(⟨"e1", "r1", [1]⟩, (1 : ℝ))] : List (MedicalEmbedding × ℝ)).length ≤ 5 ∧
      ∀ x ∈ ([(⟨"e1", "r1", [1]⟩, (1 : ℝ))] : List (MedicalEmbedding × ℝ)),
        (3 / 10 : ℝ) < x.2) :=
  by
  have h := findSimilarEmbeddings_spec [(1 : ℝ)] [⟨"e1", "r1", [1]⟩] 5 (3 / 10)
    [(⟨"e1", "r1", [1]⟩, (1 : ℝ))] findSimilarEmbeddings_one_eval
  exact ⟨findSimilarEmbeddings_one_eval, h.1, h.2.1⟩

/-- Every error `cosineSimilarity` can produce is the length-mismatch
error. -/
theorem cosineSimilarity_error_msg (a b : List ℝ) (msg : String)
    (h : cosineSimilarity a b = .error msg) :
    msg = "Vectors must have the same length" := by
  unfold cosineSimilarity at h
  split_ifs at h <;> simp_all

/-- C7 (counterexample): the spec claims a candidate of mismatched
dimensionality is excluded while the remaining results are still returned.
On a store holding the well-dimensioned `[1]` and the mismatched `[1, 0]`,
queried with the 1-dimensional vector `[1]`, `findSimilarEmbeddings` fails
the whole call with the length error instead of returning the matching
candidate. -/
theorem findSimilarEmbeddings_mismatch_counterexample :
    findSimilarEmbeddings [(1 : ℝ)] [⟨"e1", "r1", [1]⟩, ⟨"e2", "r2", [1, 0]⟩]
        5 (3 / 10) = .error "Vectors must have the same length" := by
  have h2 : cosineSimilarity [(1 : ℝ)] [1, 0] =
      .error "Vectors must have the same length" := by
    unfold cosineSimilarity
    rw [if_pos (by simp)]
  unfold findSimilarEmbeddings
  rw [scoreCandidates, cosineSimilarity_one_one, scoreCandidates, h2]

/-- C7 (amended): whenever some stored embedding's dimensionality differs
from the query vector's, the whole `findSimilarEmbeddings` call fails with
the length-mismatch error (the mismatched candidate is not excluded, and no
remaining results are returned). -/
theorem findSimilarEmbeddings_mismatch_fails (q : List ℝ)
    (embs : List MedicalEmbedding) (topK : Nat) (θ : ℝ)
    (h : ∃ e ∈ embs, e.vector.length ≠ q.length) :
    findSimilarEmbeddings q embs topK θ =
      .error "Vectors must have the same length" := by
  have hs : scoreCandidates q embs =
      .error "Vectors must have the same length" := by
    induction embs with
    | nil => simp at h
    | cons e es ih =>
      obtain ⟨e', he', hne⟩ := h
      rcases List.mem_cons.mp he' with rfl | hmem
      · have hcos : cosineSimilarity q e'.vector =
            .error "Vectors must have the same length" := by
          unfold cosineSimilarity
          rw [if_pos (Ne.symm hne)]
        rw [scoreCandidates, hcos]
      · cases hcos : cosineSimilarity q e.vector with
        | error msg =>
          rw [scoreCandidates, hcos, cosineSimilarity_error_msg q e.vector msg hcos]
        | ok s =>
          rw [scoreCandidates, hcos, ih ⟨e', hmem, hne⟩]
  unfold findSimilarEmbeddings
  rw [hs]

/-- C7 (witness): the amended theorem instantiated at a concrete mismatched
store. -/
theorem findSimilarEmbeddings_mismatch_fails_witness :
    (∃ e ∈ [(⟨"e2", "r2", [1, 0]⟩ : MedicalEmbedding)],
      e.vector.length ≠ [(1 : ℝ)].length) ∧
    findSimilarEmbeddings [(1 : ℝ)] [⟨"e2", "r2", [1, 0]⟩] 5 (3 / 10) =
      .error "Vectors must have the same length" := by
  refine ⟨⟨⟨"e2", "r2", [1, 0]⟩, by simp, by simp⟩, ?_⟩
  exact findSimilarEmbeddings_mismatch_fails [(1 : ℝ)]
    [⟨"e2", "r2", [1, 0]⟩] 5 (3 / 10)
    ⟨⟨"e2", "r2", [1, 0]⟩, by simp, by simp⟩

end SimilarityTheorems

end CyborgCare
